import Mathlib

/-!
Verification of the cyclomatic-complexity and max-statements analyzers.

The embedding models the two visitor-based rules as explicit state machines:
the host traversal is abstracted as a list of visitor events (code-path
open/close notifications and per-node-type callbacks), and each rule's
`create` closure becomes a step function over an explicit state record
(the per-code-path accumulator stack, the function-identifier stack, the
deferred top-level list, and the emitted reports).
-/

/-- Binary logical-expression trees, carrying the operator string of each
`LogicalExpression` node (`&&`, `||` or `??`); `leaf` stands for any operand
that is not itself a `LogicalExpression`. -/
inductive LExpr where
  | leaf
  | logical (op : String) (left right : LExpr)
deriving DecidableEq, Repr

/-- Mirrors `node.left.type === "LogicalExpression"` checks in the rule. -/
def LExpr.isLogical : LExpr → Bool
  | .logical _ _ _ => true
  | .leaf => false

/-- Embeds `countLogicalOperatorSequences(node, currentOp, sequences)`: the
count is incremented when `currentOp === null || currentOp !== node.operator`,
and the scan recurses into left/right operands that are logical expressions,
propagating the node's own operator. Returns the total added to
`sequences.count`; the rule never calls it on a non-logical node, so the
`leaf` case is inert. -/
def countLogicalOperatorSequences : LExpr → Option String → Nat
  | .leaf, _ => 0
  | .logical op l r, currentOp =>
      (if currentOp ≠ some op then 1 else 0)
        + (if l.isLogical then countLogicalOperatorSequences l (some op) else 0)
        + (if r.isLogical then countLogicalOperatorSequences r (some op) else 0)

/-- Modelled from the spec: `astUtils.isLogicalAssignmentOperator` lives in
`lib/rules/utils/ast-utils.js`, which is not among the provided sources; per
the spec it recognises exactly the logical short-circuit assignment operators
`&&=`, `||=` and `??=`. -/
def isLogicalAssignmentOperator (op : String) : Bool :=
  op == "&&=" || op == "||=" || op == "??="

/-- Result of `getFunctionIdentifier`: either an `Identifier` node with a
name, or a non-identifier binding target (e.g. a destructuring pattern as
`node.parent.id` of a `VariableDeclarator`), whose `.name` is undefined and
whose `.type` is not `"Identifier"`. -/
inductive BindTarget where
  | ident (name : String)
  | pattern
deriving DecidableEq, Repr

/-- Shape of `node.parent.left` when the parent is an `AssignmentExpression`. -/
inductive AssignLeft where
  | identifier (name : String)
  | memberIdentProp (propName : String)
  | memberOtherProp
  | otherLeft
deriving DecidableEq, Repr

/-- Shape of `node.parent.key` when the parent is a `Property`. -/
inductive PropKey where
  | identifier (name : String)
  | otherKey
deriving DecidableEq, Repr

/-- The syntactic parent of a function node, restricted to the shapes
`getFunctionIdentifier` inspects. -/
inductive FnParent where
  | variableDeclarator (id : BindTarget)
  | assignmentExpression (left : AssignLeft)
  | property (key : PropKey)
  | otherParent
  | noParent
deriving DecidableEq, Repr

/-- A function node as seen by `getFunctionIdentifier`: its optional `id`
(always an `Identifier` when present) and its parent. -/
structure FnNode where
  id : Option String
  parent : FnParent
deriving DecidableEq, Repr

/-- Embeds `getFunctionIdentifier(node)`: declared name first, then the
`VariableDeclarator` id, then an identifier assignment target, then the
identifier property of a member assignment target, then an identifier
object-literal key; otherwise null. -/
def getFunctionIdentifier (node : FnNode) : Option BindTarget :=
  match node.id with
  | some n => some (.ident n)
  | none =>
    match node.parent with
    | .variableDeclarator i => some i
    | .assignmentExpression (.identifier n) => some (.ident n)
    | .assignmentExpression (.memberIdentProp p) => some (.ident p)
    | .property (.identifier k) => some (.ident k)
    | _ => none

/-- Shape of `node.callee` in a `CallExpression`. -/
inductive Callee where
  | identifier (name : String)
  | memberIdentProp (propName : String)
  | memberOtherProp
  | otherCallee
deriving DecidableEq, Repr

/-- Embeds the two match branches of the `CallExpression` handler: a bare
identifier callee matches when `node.callee.name === fid.name` (false when
the binding target is not an identifier, since its `.name` is undefined),
and a member callee with an identifier property matches when the binding
target's `.type` is `"Identifier"` and the names agree. -/
def recursiveCallMatch (fid : BindTarget) (callee : Callee) : Bool :=
  match callee, fid with
  | .identifier n, .ident m => n == m
  | .identifier _, .pattern => false
  | .memberIdentProp p, .ident m => p == m
  | .memberIdentProp _, .pattern => false
  | _, _ => false

/-- Code-path origins reported by the code-path analysis collaborator. -/
inductive Origin where
  | function
  | classFieldInitializer
  | classStaticBlock
  | program
  | other
deriving DecidableEq, Repr

/-- The origin guard of `onCodePathEnd`: only these three origins reach the
threshold check. -/
def Origin.isReportable : Origin → Bool
  | .function => true
  | .classFieldInitializer => true
  | .classStaticBlock => true
  | _ => false

/-- Visitor events consumed by the complexity rule, each carrying exactly
the node data the corresponding handler inspects. For `ifStatement`,
`alternate = some b` means the node has an `alternate`, with `b` true when
that alternate is itself an `IfStatement`. For `logicalExpression`,
`parentIsLogical` is the value of `hasLogicalExpressionParent(node)`. -/
inductive CEvent where
  | codePathStart (origin : Origin) (node : FnNode)
  | catchClause
  | conditionalExpression
  | forStatement
  | forInStatement
  | forOfStatement
  | whileStatement
  | doWhileStatement
  | ifStatement (alternate : Option Bool)
  | callExpression (callee : Callee)
  | switchStatement (hasDefaultCase : Bool)
  | switchCaseWithTest
  | logicalExpression (expr : LExpr) (parentIsLogical : Bool)
  | assignmentExpression (operator : String)
  | codePathEnd (origin : Origin)
deriving DecidableEq, Repr

/-- The `{complexity, max}` data of one emitted violation (the name field of
the payload is diagnostic only and not modelled). `max` is the resolved
threshold, which the option-resolution bug can leave undefined (`none`). -/
structure CReport where
  complexity : Nat
  max : Option Nat
deriving DecidableEq, Repr

/-- Mutable state of one complexity-rule traversal: the `complexities` stack
and the `functionStack` (head = top of stack), plus the reports emitted so
far in order. -/
structure CState where
  complexities : List Nat
  functionStack : List (Option BindTarget)
  reports : List CReport
deriving DecidableEq, Repr

/-- Models `arr[arr.length - 1] += k` on a stack whose head is the top. On an
empty array the JS code writes `NaN` to property `-1`, which is outside the
array elements and is never observed by any later read, so the empty case is
the identity. -/
def bumpTop (k : Nat) : List Nat → List Nat
  | [] => []
  | c :: rest => (c + k) :: rest

/-- The reporting condition `threshold === 0 || complexity > threshold`.
When the resolved threshold is undefined (`none`), both disjuncts are false
in JS (`undefined === 0` is false and `complexity > undefined` is false). -/
def complexityReports (threshold : Option Nat) (complexity : Nat) : Bool :=
  match threshold with
  | some t => t == 0 || complexity > t
  | none => false

/-- One visitor callback of the complexity rule (the updated variant with
recursion detection and else-branch handling). `onCodePathStart` pushes a
zero accumulator and the function identifier (null for non-function
origins); branch handlers call `increaseComplexity` the indicated number of
times; `onCodePathEnd` pops both stacks, then applies the origin guard and
the threshold check. -/
def cStep (threshold : Option Nat) (st : CState) : CEvent → CState
  | .codePathStart origin node =>
      { st with
        complexities := 0 :: st.complexities,
        functionStack :=
          (match origin with
           | .function => getFunctionIdentifier node
           | _ => none) :: st.functionStack }
  | .catchClause => { st with complexities := bumpTop 1 st.complexities }
  | .conditionalExpression => { st with complexities := bumpTop 1 st.complexities }
  | .forStatement => { st with complexities := bumpTop 1 st.complexities }
  | .forInStatement => { st with complexities := bumpTop 1 st.complexities }
  | .forOfStatement => { st with complexities := bumpTop 1 st.complexities }
  | .whileStatement => { st with complexities := bumpTop 1 st.complexities }
  | .doWhileStatement => { st with complexities := bumpTop 1 st.complexities }
  | .ifStatement alternate =>
      { st with complexities :=
          bumpTop (1 + match alternate with | some false => 1 | _ => 0) st.complexities }
  | .callExpression callee =>
      (match st.functionStack.headD none with
       | none => st
       | some fid =>
           if recursiveCallMatch fid callee then
             { st with complexities := bumpTop 1 st.complexities }
           else st)
  | .switchStatement hasDefaultCase =>
      { st with complexities := bumpTop (if hasDefaultCase then 2 else 1) st.complexities }
  | .switchCaseWithTest => st
  | .logicalExpression e parentIsLogical =>
      if parentIsLogical then st
      else
        { st with complexities :=
            bumpTop (countLogicalOperatorSequences e none) st.complexities }
  | .assignmentExpression op =>
      if isLogicalAssignmentOperator op then
        { st with complexities := bumpTop 1 st.complexities }
      else st
  | .codePathEnd origin =>
      let complexity := st.complexities.headD 0
      let st1 : CState :=
        { complexities := st.complexities.tail,
          functionStack := st.functionStack.tail,
          reports := st.reports }
      if origin.isReportable then
        if complexityReports threshold complexity then
          { st1 with reports := st1.reports ++ [⟨complexity, threshold⟩] }
        else st1
      else st1

/-- Folds the complexity rule's callbacks over an event sequence. -/
def processC (threshold : Option Nat) (events : List CEvent) (st : CState) : CState :=
  events.foldl (cStep threshold) st

/-- Runs one complexity traversal from the fresh state the `create` closure
builds. -/
def runComplexity (threshold : Option Nat) (events : List CEvent) : CState :=
  processC threshold events ⟨[], [], []⟩

/-- The first rule option as both rules receive it: a plain number, an
object whose `maximum`/`max` keys may each be absent (`none`), or absent. -/
inductive RuleOption where
  | num (n : Nat)
  | obj (maximum : Option Nat) (max : Option Nat)
  | absent
deriving DecidableEq, Repr

/-- JS `a || b` on values that are either a validated non-negative integer
or undefined: a present non-zero number is returned, otherwise `b`. -/
def jsOrNat : Option Nat → Option Nat → Option Nat
  | some a, b => if a == 0 then b else some a
  | none, b => b

/-- Embeds the threshold resolution shared by both rules (complexity uses
default 20, max-statements default 10): for an object option with a
`maximum` or `max` key the threshold is `option.maximum || option.max`
(which is undefined for `{maximum: 0}` with no `max` key), for a number it
is that number, otherwise the default is kept. -/
def resolveOption (dflt : Nat) (option : RuleOption) : Option Nat :=
  match option with
  | .obj m x => if m.isSome || x.isSome then jsOrNat m x else some dflt
  | .num n => some n
  | .absent => some dflt

/-- Node kinds that open and close an accumulator in the max-statements
rule. -/
inductive FnKind where
  | functionDeclaration
  | functionExpression
  | arrowFunctionExpression
  | staticBlock
deriving DecidableEq, Repr

/-- Visitor events consumed by the max-statements rule: function-like entry
and exit, a `BlockStatement` carrying its direct `node.body.length`, and the
`Program:exit` event. -/
inductive SEvent where
  | functionEnter (kind : FnKind)
  | blockStatement (bodyLength : Nat)
  | functionExit (kind : FnKind)
  | programExit
deriving DecidableEq, Repr

/-- Mutable state of one max-statements traversal: the accumulator stack
(head = top), the deferred top-level counts in order, and the reported
counts in order. -/
structure SState where
  functionStack : List Nat
  topLevelFunctions : List Nat
  reports : List Nat
deriving DecidableEq, Repr

/-- The `count > max` comparison of `reportIfTooManyStatements`, with an
undefined max (from the `{maximum: 0}` resolution quirk) comparing false. -/
def statementsExceed (count : Nat) : Option Nat → Bool
  | some m => count > m
  | none => false

/-- Embeds `reportIfTooManyStatements(node, count, max)`: appends a report
when the count strictly exceeds the max. -/
def reportIfTooManyStatements (count : Nat) (max : Option Nat)
    (reports : List Nat) : List Nat :=
  if statementsExceed count max then reports ++ [count] else reports

/-- One visitor callback of the max-statements rule: `startFunction` pushes
0; `countStatements` adds the block's direct statement count to the top of
the stack (a bare block outside any function writes to index `-1` in JS,
which nothing ever reads back, hence the identity); `endFunction` pops,
returns early for static blocks, defers a top-level unit when
`ignoreTopLevelFunctions` is set, and otherwise reports; `Program:exit`
suppresses a lone deferred unit and reports the rest. -/
def sStep (max : Option Nat) (ignoreTopLevelFunctions : Bool)
    (st : SState) : SEvent → SState
  | .functionEnter _ => { st with functionStack := 0 :: st.functionStack }
  | .blockStatement n => { st with functionStack := bumpTop n st.functionStack }
  | .functionExit kind =>
      let count := st.functionStack.headD 0
      let rest := st.functionStack.tail
      (match kind with
       | .staticBlock => { st with functionStack := rest }
       | _ =>
           if ignoreTopLevelFunctions && rest.isEmpty then
             { st with
               functionStack := rest,
               topLevelFunctions := st.topLevelFunctions ++ [count] }
           else
             { st with
               functionStack := rest,
               reports := reportIfTooManyStatements count max st.reports })
  | .programExit =>
      if st.topLevelFunctions.length == 1 then st
      else
        { st with reports :=
            (st.topLevelFunctions.foldl
              (fun r c => reportIfTooManyStatements c max r) st.reports) }

/-- Folds the max-statements rule's callbacks over an event sequence. -/
def processS (max : Option Nat) (ignoreTopLevelFunctions : Bool)
    (events : List SEvent) (st : SState) : SState :=
  events.foldl (sStep max ignoreTopLevelFunctions) st

/-- Runs one max-statements traversal from the fresh state the `create`
closure builds. -/
def runMaxStatements (max : Option Nat) (ignoreTopLevelFunctions : Bool)
    (events : List SEvent) : SState :=
  processS max ignoreTopLevelFunctions events ⟨[], [], []⟩

/-! Helper lemmas about the stack primitive and event folding. -/

theorem bumpTop_zero (l : List Nat) : bumpTop 0 l = l := by
  cases l <;> simp [bumpTop]

theorem bumpTop_bumpTop (a b : Nat) (l : List Nat) :
    bumpTop a (bumpTop b l) = bumpTop (b + a) l := by
  cases l <;> simp [bumpTop, Nat.add_assoc]

theorem processC_cons (th : Option Nat) (e : CEvent) (es : List CEvent)
    (st : CState) :
    processC th (e :: es) st = processC th es (cStep th st e) := rfl

theorem processC_append (th : Option Nat) (es fs : List CEvent) (st : CState) :
    processC th (es ++ fs) st = processC th fs (processC th es st) := by
  simp [processC, List.foldl_append]

theorem processC_replicate_one (th : Option Nat) (ev : CEvent)
    (hev : ∀ st : CState,
      cStep th st ev = { st with complexities := bumpTop 1 st.complexities }) :
    ∀ (n : Nat) (st : CState),
      processC th (List.replicate n ev) st
        = { st with complexities := bumpTop n st.complexities } := by
  intro n
  induction n with
  | zero => intro st; simp [processC, List.replicate, bumpTop_zero]
  | succ m ih =>
      intro st
      rw [List.replicate_succ, processC_cons, hev, ih, bumpTop_bumpTop,
        Nat.add_comm 1 m]

theorem processS_cons (m : Option Nat) (ig : Bool) (e : SEvent)
    (es : List SEvent) (st : SState) :
    processS m ig (e :: es) st = processS m ig es (sStep m ig st e) := rfl

theorem processS_append (m : Option Nat) (ig : Bool) (es fs : List SEvent)
    (st : SState) :
    processS m ig (es ++ fs) st = processS m ig fs (processS m ig es st) := by
  simp [processS, List.foldl_append]

theorem processS_blocks (m : Option Nat) (ig : Bool) (bs : List Nat) :
    ∀ st : SState,
      processS m ig (bs.map SEvent.blockStatement) st
        = { st with functionStack := bumpTop bs.sum st.functionStack } := by
  induction bs with
  | nil => intro st; simp [processS, bumpTop_zero]
  | cons b rest ih =>
      intro st
      rw [List.map_cons, processS_cons, ih]
      show ({ st with functionStack := bumpTop rest.sum (bumpTop b st.functionStack) } : SState) = _
      rw [bumpTop_bumpTop]
      simp

theorem foldl_reportIf_filter (m : Option Nat) (ks : List Nat) :
    ∀ acc : List Nat,
      ks.foldl (fun r c => reportIfTooManyStatements c m r) acc
        = acc ++ ks.filter (fun k => statementsExceed k m) := by
  induction ks with
  | nil => intro acc; simp
  | cons k rest ih =>
      intro acc
      rw [List.foldl_cons, ih, List.filter_cons]
      by_cases h : statementsExceed k m
      · simp [reportIfTooManyStatements, h]
      · simp [reportIfTooManyStatements, h]

/-! Concrete logical-expression chains used by the spec's examples, written
with the left associativity the JS parser produces. -/

/-- The parse tree of `a && b && c`. -/
def chainAnd3 : LExpr := .logical "&&" (.logical "&&" .leaf .leaf) .leaf

/-- The parse tree of `a && b && c || d || e`. -/
def chainAnd3Or2 : LExpr :=
  .logical "||"
    (.logical "||" (.logical "&&" (.logical "&&" .leaf .leaf) .leaf) .leaf)
    .leaf

/-- The parse tree of `a && b || c && d`. -/
def chainMixed : LExpr :=
  .logical "||" (.logical "&&" .leaf .leaf) (.logical "&&" .leaf .leaf)

/-- C1 counterexample: for a function whose body contains only a return
statement (which triggers no branch handler), the analyzer pushes 0 at
`onCodePathStart` and reports complexity 0 in the violation payload at
threshold 0 — not the claimed 1. -/
theorem complexity_baseline_not_one :
    (runComplexity (some 0)
      [.codePathStart .program ⟨none, .noParent⟩,
       .codePathStart .function ⟨some "basic", .noParent⟩,
       .codePathEnd .function,
       .codePathEnd .program]).reports = [⟨0, some 0⟩]
    ∧ (0 : Nat) ≠ 1 := by
  exact ⟨rfl, by decide⟩

/-- C1 amended: the complexity accumulator starts at 0 when a code path
opens, and a function whose body contains only a return statement computes
and reports complexity 0, emitted exactly when `threshold == 0` (since its
score exceeds no threshold). -/
theorem complexity_baseline_starts_at_zero (th : Option Nat) (origin : Origin)
    (node : FnNode) (st : CState) (t : Nat) :
    (cStep th st (.codePathStart origin node)).complexities = 0 :: st.complexities
    ∧ (runComplexity (some t)
        [.codePathStart .program ⟨none, .noParent⟩,
         .codePathStart .function node,
         .codePathEnd .function,
         .codePathEnd .program]).reports
        = (if t = 0 then [⟨0, some t⟩] else []) := by
  constructor
  · rfl
  · by_cases h : t = 0
    · subst h
      rfl
    · simp [runComplexity, processC, cStep, complexityReports,
        Origin.isReportable, h]

/-- C2: a logical expression whose parent is itself a logical expression is
skipped outright; an outermost one adds one complexity point per maximal
same-operator run found by `countLogicalOperatorSequences`; on the spec's
examples the scan finds 1 run for `a && b && c`, 2 runs for
`a && b && c || d || e`, and 3 runs for `a && b || c && d`. -/
theorem logical_chain_run_counting (th : Option Nat) (st : CState) (e : LExpr) :
    cStep th st (.logicalExpression e true) = st
    ∧ (cStep th st (.logicalExpression e false)).complexities
        = bumpTop (countLogicalOperatorSequences e none) st.complexities
    ∧ countLogicalOperatorSequences chainAnd3 none = 1
    ∧ countLogicalOperatorSequences chainAnd3Or2 none = 2
    ∧ countLogicalOperatorSequences chainMixed none = 3 := by
  exact ⟨rfl, rfl, by decide, by decide, by decide⟩

/-- Event sequence of an else-if chain visited in document order: `n + 1`
`if` nodes, the first `n` of which carry an alternate that is itself an
`IfStatement`, and a last one whose alternate is a non-`if` else when
`finalElse` is set (and absent otherwise). -/
def elseIfChain (n : Nat) (finalElse : Bool) : List CEvent :=
  List.replicate n (.ifStatement (some true))
    ++ [.ifStatement (if finalElse then some false else none)]

/-- C3: an `if` with no alternate or with an else-if alternate adds exactly
1, an `if` with a non-`if` else adds 2, and an else-if chain of `n + 1` `if`
nodes adds `n + 1` plus 1 exactly when it ends in a final non-`if` else. -/
theorem if_statement_complexity (th : Option Nat) (st : CState) (n : Nat)
    (finalElse : Bool) :
    (cStep th st (.ifStatement none)).complexities = bumpTop 1 st.complexities
    ∧ (cStep th st (.ifStatement (some true))).complexities
        = bumpTop 1 st.complexities
    ∧ (cStep th st (.ifStatement (some false))).complexities
        = bumpTop 2 st.complexities
    ∧ (processC th (elseIfChain n finalElse) st).complexities
        = bumpTop (n + 1 + (if finalElse then 1 else 0)) st.complexities := by
  refine ⟨rfl, rfl, rfl, ?_⟩
  rw [elseIfChain, processC_append,
    processC_replicate_one th (.ifStatement (some true)) (fun s => rfl) n st]
  cases finalElse
  · show bumpTop 1 (bumpTop n st.complexities) = _
    rw [bumpTop_bumpTop]
    simp
  · show bumpTop 2 (bumpTop n st.complexities) = _
    rw [bumpTop_bumpTop]
    simp [Nat.add_assoc]

/-- C4: the binding is resolved in the source's priority order (declared
name first, then `VariableDeclarator` id, assigned identifier, assigned
member property, object-literal key, else none); a call site adds exactly 1
when the top-of-stack binding is an identifier matching a bare-identifier
callee or a member callee's property name; with no binding on top of the
stack (anonymous function, a non-function code path, or an empty stack)
every call adds 0; non-function code paths push an empty binding; and a
call inside a nested function is matched against the nested binding only,
never the outer function's. -/
theorem recursive_call_detection (th : Option Nat) (n m p : String)
    (parent : FnParent) (i : BindTarget) (callee : Callee) (c : List Nat)
    (fs : List (Option BindTarget)) (rp : List CReport) :
    getFunctionIdentifier ⟨some n, parent⟩ = some (.ident n)
    ∧ getFunctionIdentifier ⟨none, .variableDeclarator i⟩ = some i
    ∧ getFunctionIdentifier ⟨none, .assignmentExpression (.identifier n)⟩
        = some (.ident n)
    ∧ getFunctionIdentifier ⟨none, .assignmentExpression (.memberIdentProp p)⟩
        = some (.ident p)
    ∧ getFunctionIdentifier ⟨none, .property (.identifier n)⟩ = some (.ident n)
    ∧ getFunctionIdentifier ⟨none, .noParent⟩ = none
    ∧ (cStep th ⟨c, some (.ident m) :: fs, rp⟩
        (.callExpression (.identifier n))).complexities
        = bumpTop (if n = m then 1 else 0) c
    ∧ (cStep th ⟨c, some (.ident m) :: fs, rp⟩
        (.callExpression (.memberIdentProp p))).complexities
        = bumpTop (if p = m then 1 else 0) c
    ∧ cStep th ⟨c, none :: fs, rp⟩ (.callExpression callee) = ⟨c, none :: fs, rp⟩
    ∧ cStep th ⟨c, [], rp⟩ (.callExpression callee) = ⟨c, [], rp⟩
    ∧ cStep th ⟨c, some .pattern :: fs, rp⟩ (.callExpression callee)
        = ⟨c, some .pattern :: fs, rp⟩
    ∧ (cStep th ⟨c, fs, rp⟩
        (.codePathStart .classFieldInitializer ⟨some n, parent⟩)).functionStack
        = none :: fs
    ∧ (runComplexity (some 0)
        [.codePathStart .function ⟨some "foo", .noParent⟩,
         .callExpression (.identifier "foo"),
         .callExpression (.memberIdentProp "foo"),
         .codePathStart .function ⟨none, .otherParent⟩,
         .callExpression (.identifier "foo"),
         .codePathEnd .function,
         .codePathEnd .function]).reports
        = [⟨0, some 0⟩, ⟨2, some 0⟩] := by
  refine ⟨rfl, rfl, rfl, rfl, rfl, rfl, ?_, ?_, ?_, ?_, ?_, rfl, by decide⟩
  · by_cases hnm : n = m <;>
      simp [cStep, recursiveCallMatch, hnm, bumpTop_zero]
  · by_cases hpm : p = m <;>
      simp [cStep, recursiveCallMatch, hpm, bumpTop_zero]
  · cases callee <;> rfl
  · cases callee <;> rfl
  · cases callee <;> simp [cStep, recursiveCallMatch]

/-- Event sequence of one function-origin code path whose body contributes
`c` decision points (as `c` ternary conditionals). -/
def complexityUnit (c : Nat) : List CEvent :=
  .codePathStart .function ⟨none, .noParent⟩
    :: (List.replicate c .conditionalExpression ++ [.codePathEnd .function])

/-- Event sequence of one simple function whose body block directly holds
`c` statements, followed by the end of traversal. -/
def statementsUnit (c : Nat) : List SEvent :=
  [.functionEnter .functionDeclaration, .blockStatement c,
   .functionExit .functionDeclaration, .programExit]

/-- C5 counterexample: with `maxStatements` configured to 0, a function with
0 statements is NOT reported by the statement counter, although the claimed
condition `t == 0 or score > t` holds (its left disjunct is true); the
statement counter has no unconditional threshold-0 branch. -/
theorem statement_threshold_zero_no_report :
    (runMaxStatements (some 0) false
      [.functionEnter .functionDeclaration, .blockStatement 0,
       .functionExit .functionDeclaration, .programExit]).reports = []
    ∧ ((0 : Nat) = 0 ∨ (0 : Nat) > 0) := by
  exact ⟨rfl, Or.inl rfl⟩

/-- C5 amended: for the complexity analyzer a unit with score `c` is
reported exactly when `t = 0` or `c > t`, while for the statement counter a
unit with count `c` is reported exactly when `c > t` (so a score equal to
the threshold never reports there, and threshold 0 does not report
unconditionally). -/
theorem report_threshold_boundary (t c : Nat) :
    ((runComplexity (some t) (complexityUnit c)).reports ≠ [] ↔ (t = 0 ∨ c > t))
    ∧ ((runMaxStatements (some t) false (statementsUnit c)).reports ≠ [] ↔ c > t) := by
  constructor
  · show (processC (some t)
        (List.replicate c .conditionalExpression ++ [.codePathEnd .function])
        ⟨[0], [none], []⟩).reports ≠ [] ↔ _
    rw [processC_append,
      processC_replicate_one (some t) .conditionalExpression (fun s => rfl) c]
    show (cStep (some t) ⟨[0 + c], [none], []⟩ (.codePathEnd .function)).reports
        ≠ [] ↔ _
    by_cases h : t = 0
    · subst h
      simp [cStep, complexityReports, Origin.isReportable]
    · by_cases hc : c > t
      · simp [cStep, complexityReports, Origin.isReportable, h, hc, Nat.zero_add]
      · simp [cStep, complexityReports, Origin.isReportable, h, hc, Nat.zero_add]
  · show (processS (some t) false
        [SEvent.blockStatement c, .functionExit .functionDeclaration,
         .programExit] ⟨[0], [], []⟩).reports ≠ [] ↔ _
    by_cases hc : c > t
    · simp [processS, sStep, reportIfTooManyStatements, statementsExceed,
        bumpTop, hc, Nat.zero_add]
    · simp [processS, sStep, reportIfTooManyStatements, statementsExceed,
        bumpTop, hc, Nat.zero_add]

/-- C6 counterexample: configuring the complexity analyzer with
`{maximum: 0}` resolves `option.maximum || option.max` to undefined (0 is
falsy and there is no `max` key), so no unit is ever reported, whereas the
plain integer 0 reports every function unconditionally — the two option
shapes are not observationally equivalent at n = 0. -/
theorem maximum_zero_not_equivalent :
    resolveOption 20 (.obj (some 0) none) = none
    ∧ (runComplexity (resolveOption 20 (.obj (some 0) none))
        [.codePathStart .function ⟨none, .noParent⟩,
         .codePathEnd .function]).reports = []
    ∧ (runComplexity (resolveOption 20 (.num 0))
        [.codePathStart .function ⟨none, .noParent⟩,
         .codePathEnd .function]).reports = [⟨0, some 0⟩] := by
  exact ⟨rfl, rfl, rfl⟩

/-- C6 amended: for every n ≥ 1, the record shapes `{maximum: n}` and
`{max: n}` resolve to the same threshold as the plain integer n in both
analyzers, so all three configurations produce identical runs on every
event sequence; at n = 0 the shape `{max: 0}` still resolves to 0, but
`{maximum: 0}` (with no `max` key) resolves to undefined and never reports. -/
theorem option_shapes_equivalent_for_positive (n : Nat) (es : List CEvent)
    (ses : List SEvent) (ig : Bool) (h : 1 ≤ n) :
    resolveOption 20 (.obj (some n) none) = some n
    ∧ resolveOption 20 (.obj none (some n)) = some n
    ∧ resolveOption 20 (.num n) = some n
    ∧ resolveOption 10 (.obj (some n) none) = some n
    ∧ resolveOption 10 (.obj none (some n)) = some n
    ∧ resolveOption 10 (.num n) = some n
    ∧ runComplexity (resolveOption 20 (.obj (some n) none)) es
        = runComplexity (resolveOption 20 (.num n)) es
    ∧ runComplexity (resolveOption 20 (.obj none (some n))) es
        = runComplexity (resolveOption 20 (.num n)) es
    ∧ runMaxStatements (resolveOption 10 (.obj (some n) none)) ig ses
        = runMaxStatements (resolveOption 10 (.num n)) ig ses
    ∧ runMaxStatements (resolveOption 10 (.obj none (some n))) ig ses
        = runMaxStatements (resolveOption 10 (.num n)) ig ses
    ∧ resolveOption 10 (.obj none (some 0)) = some 0 := by
  have hn : (n == 0) = false := by
    simp only [beq_eq_false_iff_ne, ne_eq]
    omega
  have hmx : resolveOption 20 (.obj (some n) none) = some n := by
    simp [resolveOption, jsOrNat, hn]
  have hx : resolveOption 20 (.obj none (some n)) = some n := by
    simp [resolveOption, jsOrNat]
  have hmx10 : resolveOption 10 (.obj (some n) none) = some n := by
    simp [resolveOption, jsOrNat, hn]
  have hx10 : resolveOption 10 (.obj none (some n)) = some n := by
    simp [resolveOption, jsOrNat]
  refine ⟨hmx, hx, rfl, hmx10, hx10, rfl, ?_, ?_, ?_, ?_, rfl⟩
  · rw [hmx]; rfl
  · rw [hx]; rfl
  · rw [hmx10]; rfl
  · rw [hx10]; rfl

/-- C6 amended witness at n = 3. -/
theorem option_shapes_equivalent_for_positive_witness :
    1 ≤ 3
    ∧ (resolveOption 20 (.obj (some 3) none) = some 3
    ∧ resolveOption 20 (.obj none (some 3)) = some 3
    ∧ resolveOption 20 (.num 3) = some 3
    ∧ resolveOption 10 (.obj (some 3) none) = some 3
    ∧ resolveOption 10 (.obj none (some 3)) = some 3
    ∧ resolveOption 10 (.num 3) = some 3
    ∧ runComplexity (resolveOption 20 (.obj (some 3) none)) []
        = runComplexity (resolveOption 20 (.num 3)) []
    ∧ runComplexity (resolveOption 20 (.obj none (some 3))) []
        = runComplexity (resolveOption 20 (.num 3)) []
    ∧ runMaxStatements (resolveOption 10 (.obj (some 3) none)) false []
        = runMaxStatements (resolveOption 10 (.num 3)) false []
    ∧ runMaxStatements (resolveOption 10 (.obj none (some 3))) false []
        = runMaxStatements (resolveOption 10 (.num 3)) false []
    ∧ resolveOption 10 (.obj none (some 0)) = some 0) :=
  ⟨by decide, option_shapes_equivalent_for_positive 3 [] [] false (by decide)⟩

/-- The parse tree of `a ?? b ?? c`: two nullish-coalescing occurrences in
one contiguous chain. -/
def qqChain : LExpr := .logical "??" (.logical "??" .leaf .leaf) .leaf

/-- C7 counterexample: `a ?? b ?? c` contains two `??` occurrences, but the
`LogicalExpression` handler routes `??` through the same-operator run
counting, so the whole chain adds a single complexity point (the unit
reports complexity 1 at threshold 0), not the claimed 2. -/
theorem nullish_chain_single_point :
    (runComplexity (some 0)
      [.codePathStart .function ⟨none, .noParent⟩,
       .logicalExpression qqChain false,
       .codePathEnd .function]).reports = [⟨1, some 0⟩]
    ∧ (1 : Nat) ≠ 2 := by
  exact ⟨by decide, by decide⟩

/-- C7 amended: each occurrence of a logical assignment operator `&&=`,
`||=` or `??=` adds exactly 1 with no merging (two successive occurrences
add 2), other assignment operators add nothing, and `??` participates in
the logical-chain run counting like `&&` and `||`: a lone `??` node adds 1,
but adjacent same-operator `??` occurrences merge into a single run, while
an operator change (e.g. `(a ?? b) && c`) starts a new run. -/
theorem short_circuit_single_operators (th : Option Nat) (c : List Nat)
    (fs : List (Option BindTarget)) (rp : List CReport) :
    (cStep th ⟨c, fs, rp⟩ (.assignmentExpression "&&=")).complexities
        = bumpTop 1 c
    ∧ (cStep th ⟨c, fs, rp⟩ (.assignmentExpression "||=")).complexities
        = bumpTop 1 c
    ∧ (cStep th ⟨c, fs, rp⟩ (.assignmentExpression "??=")).complexities
        = bumpTop 1 c
    ∧ cStep th ⟨c, fs, rp⟩ (.assignmentExpression "=") = ⟨c, fs, rp⟩
    ∧ cStep th ⟨c, fs, rp⟩ (.assignmentExpression "+=") = ⟨c, fs, rp⟩
    ∧ (processC th
        [.assignmentExpression "??=", .assignmentExpression "??="]
        ⟨c, fs, rp⟩).complexities = bumpTop 2 c
    ∧ countLogicalOperatorSequences (.logical "??" .leaf .leaf) none = 1
    ∧ countLogicalOperatorSequences qqChain none = 1
    ∧ countLogicalOperatorSequences
        (.logical "&&" (.logical "??" .leaf .leaf) .leaf) none = 2 := by
  refine ⟨rfl, rfl, rfl, rfl, rfl, ?_, by decide, by decide, by decide⟩
  show (cStep th (cStep th ⟨c, fs, rp⟩ (.assignmentExpression "??="))
      (.assignmentExpression "??=")).complexities = bumpTop 2 c
  show bumpTop 1 (bumpTop 1 c) = bumpTop 2 c
  rw [bumpTop_bumpTop]

/-- C8: the count attributed to a function-like unit is the sum of the
direct statement-list lengths of the blocks entered while that unit is the
innermost open one — for any sequence of block sizes `bs` the popped count
is `bs.sum` (so a body with exactly `k` direct statements reports `k`), and
blocks inside a nested unit count toward the nested accumulator only. -/
theorem statement_count_sums_blocks (bs : List Nat) (k a b d maxS : Nat) :
    (runMaxStatements (some maxS) false
      (.functionEnter .functionDeclaration :: (bs.map .blockStatement
        ++ [.functionExit .functionDeclaration, .programExit]))).reports
      = (if bs.sum > maxS then [bs.sum] else [])
    ∧ (runMaxStatements (some maxS) false
        [.functionEnter .functionDeclaration, .blockStatement k,
         .functionExit .functionDeclaration, .programExit]).reports
      = (if k > maxS then [k] else [])
    ∧ (runMaxStatements (some maxS) false
        [.functionEnter .functionDeclaration, .blockStatement a,
         .functionEnter .functionExpression, .blockStatement b,
         .functionExit .functionExpression, .blockStatement d,
         .functionExit .functionDeclaration, .programExit]).reports
      = ((if b > maxS then [b] else [])
          ++ (if a + d > maxS then [a + d] else [])) := by
  refine ⟨?_, ?_, ?_⟩
  · show (processS (some maxS) false
        (bs.map .blockStatement
          ++ [.functionExit .functionDeclaration, .programExit])
        ⟨[0], [], []⟩).reports = _
    rw [processS_append, processS_blocks]
    show (processS (some maxS) false
        [.functionExit .functionDeclaration, .programExit]
        ⟨[0 + bs.sum], [], []⟩).reports = _
    by_cases hb : bs.sum > maxS <;>
      simp [processS, sStep, reportIfTooManyStatements, statementsExceed, hb]
  · by_cases hk : k > maxS <;>
      simp [runMaxStatements, processS, sStep, reportIfTooManyStatements,
        statementsExceed, bumpTop, hk]
  · by_cases hb : b > maxS <;> by_cases had : a + d > maxS <;>
      simp [runMaxStatements, processS, sStep, reportIfTooManyStatements,
        statementsExceed, bumpTop, hb, had, Nat.zero_add]

/-- Event sequence of one simple top-level function whose body directly
holds `k` statements. -/
def topLevelFn (k : Nat) : List SEvent :=
  [.functionEnter .functionDeclaration, .blockStatement k,
   .functionExit .functionDeclaration]

/-- Event sequence of a program consisting only of simple top-level
functions with the given statement counts. -/
def topLevelFns : List Nat → List SEvent
  | [] => []
  | k :: rest => topLevelFn k ++ topLevelFns rest

theorem processS_topLevelFns (maxS : Option Nat) (ks : List Nat) :
    ∀ tl rp : List Nat,
      processS maxS true (topLevelFns ks) ⟨[], tl, rp⟩ = ⟨[], tl ++ ks, rp⟩ := by
  induction ks with
  | nil => intro tl rp; simp [topLevelFns, processS]
  | cons k rest ih =>
      intro tl rp
      rw [topLevelFns, processS_append]
      have h1 : processS maxS true (topLevelFn k) ⟨[], tl, rp⟩
          = ⟨[], tl ++ [k], rp⟩ := by
        simp [topLevelFn, processS, sStep, bumpTop]
      rw [h1, ih]
      simp

/-- C9: with `ignoreTopLevelFunctions` set, a function-like unit (other
than a static block) closing while the stack empties is appended to the
deferred list instead of being reported; at `Program:exit` a single
deferred unit is suppressed entirely, and with two or more deferred units
exactly those whose count exceeds the max are reported, in order. -/
theorem ignore_top_level_functions_behavior (ks : List Nat) (maxS cnt : Nat)
    (tl rp : List Nat) :
    sStep (some maxS) true ⟨[cnt], tl, rp⟩ (.functionExit .functionDeclaration)
        = ⟨[], tl ++ [cnt], rp⟩
    ∧ sStep (some maxS) true ⟨[cnt], tl, rp⟩ (.functionExit .functionExpression)
        = ⟨[], tl ++ [cnt], rp⟩
    ∧ sStep (some maxS) true ⟨[cnt], tl, rp⟩
        (.functionExit .arrowFunctionExpression) = ⟨[], tl ++ [cnt], rp⟩
    ∧ (runMaxStatements (some maxS) true (topLevelFns ks ++ [.programExit])).reports
        = (if ks.length = 1 then []
           else ks.filter (fun x => statementsExceed x (some maxS))) := by
  refine ⟨rfl, rfl, rfl, ?_⟩
  show (processS (some maxS) true (topLevelFns ks ++ [.programExit])
      ⟨[], [], []⟩).reports = _
  rw [processS_append, processS_topLevelFns]
  show (sStep (some maxS) true ⟨[], [] ++ ks, []⟩ .programExit).reports = _
  by_cases h : ks.length = 1
  · simp [sStep, h]
  · simp [sStep, h, foldl_reportIf_filter]

/-- C10: a `BlockStatement` entry delivered while the accumulator stack is
empty (statements outside every function-like unit) changes nothing: the
step is the identity on the state, so every later accumulator and every
subsequently reported count is exactly what it would have been without the
event. -/
theorem block_outside_function_noop (maxS : Option Nat) (ig : Bool) (n : Nat)
    (st : SState) (es : List SEvent) (h : st.functionStack = []) :
    sStep maxS ig st (.blockStatement n) = st
    ∧ processS maxS ig (.blockStatement n :: es) st = processS maxS ig es st := by
  obtain ⟨fsk, tl, rp⟩ := st
  simp only at h
  subst h
  exact ⟨rfl, rfl⟩

/-- C10 witness at a concrete empty-stack state. -/
theorem block_outside_function_noop_witness :
    (⟨[], [], []⟩ : SState).functionStack = []
    ∧ (sStep (some 0) false (⟨[], [], []⟩ : SState) (.blockStatement 5)
          = (⟨[], [], []⟩ : SState)
       ∧ processS (some 0) false (.blockStatement 5 :: [.programExit])
            (⟨[], [], []⟩ : SState)
          = processS (some 0) false [.programExit] (⟨[], [], []⟩ : SState)) :=
  ⟨rfl, block_outside_function_noop (some 0) false 5 ⟨[], [], []⟩
    [.programExit] rfl⟩
